import Mathlib

/-!
Verification development for the multi-material printer controller
(`src/controller/print_manager.py`, `src/controller/mmu_control.py`).

The Python controller is shallowly embedded: each relevant Python function
is translated into an executable Lean function over explicit state.
Hardware and network outcomes (pump success, pause/resume success,
printer reachability, the cancellation event) are passed in as explicit
boolean parameters; wall-clock time is passed as a rational number.

Python string primitives (`strip`, `split`, `upper`, `lower`, `int(...)`)
are modelled by structurally recursive functions on ASCII character
lists, so that every definition evaluates on concrete inputs.
-/

namespace MMP

/-! ### Python string primitives -/

/-- ASCII whitespace, as stripped by Python `str.strip()` on ASCII text. -/
def isSpaceChar (c : Char) : Bool :=
  c = ' ' ∨ c = '\t' ∨ c = '\n' ∨ c = '\r' ∨ c = '\x0b' ∨ c = '\x0c'

/-- Python `str.strip()`: drop whitespace from both ends. -/
def stripChars (cs : List Char) : List Char :=
  ((cs.dropWhile isSpaceChar).reverse.dropWhile isSpaceChar).reverse

/-- Split a character list on a single delimiter character, Python
`str.split(d)` (always at least one piece). -/
def splitOnChar (d : Char) (cs : List Char) : List (List Char) :=
  match cs with
  | [] => [[]]
  | x :: rest =>
    let r := splitOnChar d rest
    if x = d then [] :: r
    else
      match r with
      | [] => [[x]]
      | piece :: pieces => (x :: piece) :: pieces

/-- ASCII uppercase of one character, Python `str.upper()` per character. -/
def upperChar (c : Char) : Char :=
  if 'a' ≤ c ∧ c ≤ 'z' then Char.ofNat (c.toNat - 32) else c

/-- ASCII lowercase of one character, Python `str.lower()` per character. -/
def lowerChar (c : Char) : Char :=
  if 'A' ≤ c ∧ c ≤ 'Z' then Char.ofNat (c.toNat + 32) else c

/-- Python `str.upper()` on ASCII text. -/
def upperStr (s : String) : String := String.mk (s.data.map upperChar)

/-- Python `str.lower()` on ASCII text. -/
def lowerStr (s : String) : String := String.mk (s.data.map lowerChar)

/-- Python `str.strip()` on ASCII text. -/
def stripStr (s : String) : String := String.mk (stripChars s.data)

/-- The fixed material set, `valid_materials = ['A','B','C','D']` in
`PrintManager.load_recipe` and `MMUController.change_material`. -/
def validMaterials : List String := ["A", "B", "C", "D"]

/-! ### Recipe parsing (`PrintManager.load_recipe`, print_manager.py lines 222-301)

The recipe is a Python dict `layer -> material`; we model it as an
association list with unique keys, where assignment replaces the value of
an existing key in place and otherwise appends (CPython dict semantics). -/

/-- Python dict assignment `d[k] = v`: replace in place if the key exists,
else append at the end. -/
def recipeInsert (m : List (Nat × String)) (k : Nat) (v : String) : List (Nat × String) :=
  match m with
  | [] => [(k, v)]
  | (k0, v0) :: rest =>
    if k0 = k then (k, v) :: rest else (k0, v0) :: recipeInsert rest k v

/-- Decimal digit run to a natural number. -/
def digitsToNat (cs : List Char) : Nat :=
  cs.foldl (fun n c => 10 * n + (c.toNat - 48)) 0

/-- A nonempty all-digit character run, as accepted by CPython `int`. -/
def parseDigits (cs : List Char) : Option Nat :=
  if cs ≠ [] ∧ cs.all Char.isDigit then some (digitsToNat cs) else none

/-- Model of CPython `int(s)` on an already-stripped ASCII string:
an optional sign followed by a nonempty digit run.  (Underscore digit
separators, which CPython also accepts, are not modelled; no claim
depends on them.) -/
def parsePyInt (s : String) : Option Int :=
  match s.data with
  | [] => none
  | c :: rest =>
    if c = '-' then (parseDigits rest).map (fun n => -(n : Int))
    else if c = '+' then (parseDigits rest).map (fun n => (n : Int))
    else (parseDigits (c :: rest)).map (fun n => (n : Int))

/-- Join character-list pieces with a delimiter (inverse of `splitOnChar`),
used to rebuild the tail of `split(',', 1)`. -/
def joinChar (d : Char) : List (List Char) → List Char
  | [] => []
  | [x] => x
  | x :: xs => x ++ d :: joinChar d xs

/-- Python `pair.split(',', 1)` guarded by `',' in pair`: `none` when the
entry has no comma, otherwise the text before the first comma and the
text after it. -/
def splitFirstComma (pair : String) : Option (String × String) :=
  match splitOnChar ',' pair.data with
  | [] => none
  | [_] => none
  | m :: rest => some (String.mk m, String.mk (joinChar ',' rest))

/-- One entry of the recipe text, as validated by the loop body of
`load_recipe`: first-comma split, strip and uppercase the material,
check it against `validMaterials`, parse the layer as an integer and
require it positive.  `none` means the entry is skipped (the Python
`continue` branches). -/
def parseEntry (pair : String) : Option (Nat × String) :=
  match splitFirstComma pair with
  | none => none
  | some (material0, layer0) =>
    if upperStr (stripStr material0) ∈ validMaterials then
      match parsePyInt (stripStr layer0) with
      | some layer =>
        if 0 < layer then some (layer.toNat, upperStr (stripStr material0)) else none
      | none => none
    else none

/-- The per-entry step of `load_recipe`: a malformed entry leaves the
dict unchanged, a valid one is inserted (a later duplicate layer key
overrides the earlier one). -/
def parsePairStep (recipe : List (Nat × String)) (pair : String) : List (Nat × String) :=
  match parseEntry pair with
  | none => recipe
  | some (k, v) => recipeInsert recipe k v

/-- `PrintManager.load_recipe` on the recipe file text: strip the text,
an empty file yields the empty recipe, otherwise split on `:` and fold
the per-entry step over the pieces. -/
def load_recipe (text : String) : List (Nat × String) :=
  let t := stripChars text.data
  if t = [] then []
  else ((splitOnChar ':' t).map String.mk).foldl parsePairStep []

example : load_recipe "A,10:B,25" = [(10, "A"), (25, "B")] := by decide
example : load_recipe "a, 50 :x:B,0:C,-3:E,7:B,120:A,120" = [(50, "A"), (120, "A")] := by decide
example : load_recipe "" = [] := by decide

/-! ### Monitoring loop, material-change check
(`PrintManager._monitoring_loop`, print_manager.py lines 598-629)

One loop iteration's material-change block, parameterized by the layer
extracted from the printer status (`current_layer`), by the
`_recipe_active` flag and by the outcome of `_handle_material_change`
(`changeOk`).  `events` records each triggered change as
`(layer, material)`. -/

structure MonState where
  recipe : List (Nat × String)
  lastProcessed : Option Nat
  events : List (Nat × String)
deriving DecidableEq, Repr

/-- Lines 598-629: if `_recipe_active and current_layer in self.recipe and
current_layer != self._last_processed_layer`, run the material change;
on success record `last_processed_layer` and delete the recipe entry, on
failure record `last_processed_layer` only. -/
def monitorStep (recipeActive changeOk : Bool) (s : MonState) (currentLayer : Nat) : MonState :=
  if recipeActive = true ∧ (s.recipe.lookup currentLayer).isSome
      ∧ s.lastProcessed ≠ some currentLayer then
    let material := (s.recipe.lookup currentLayer).getD ""
    if changeOk then
      { recipe := s.recipe.filter (fun p => decide (p.1 ≠ currentLayer)),
        lastProcessed := some currentLayer,
        events := s.events ++ [(currentLayer, material)] }
    else
      { recipe := s.recipe, lastProcessed := some currentLayer,
        events := s.events ++ [(currentLayer, material)] }
  else s

/-- The monitoring loop over the sequence of observed `current_layer`
values of an uninterrupted session with `_recipe_active` set and every
material change succeeding. -/
def monitorRun (recipe : List (Nat × String)) (polls : List Nat) : MonState :=
  polls.foldl (monitorStep true true) { recipe := recipe, lastProcessed := none, events := [] }

example :
    (monitorRun (load_recipe "A,10:B,25") [1, 1, 5, 10, 10, 15, 25, 25, 30]).events
      = [(10, "A"), (25, "B")] := by decide

/-! ### MMU controller (`mmu_control.py`)

Pump profiles follow the default configuration built into
`MMUController._load_pump_config` (lines 68-99): pumps `pump_a`,
`pump_b`, `pump_c` at 2.5 ml/s and `drain_pump` at 5.0 ml/s; material
change uses drain volume 50 ml, fill volume 45 ml.  Hardware effects are
recorded as an `MMUAction` trace; `stepperOk` parameterizes whether
`run_stepper` raises. -/

inductive MMUAction where
  | solenoidOn : MMUAction
  | solenoidOff : MMUAction
  | stepper (motorId directionCode : String) (seconds : Int) : MMUAction
deriving DecidableEq, Repr

structure PumpProfile where
  name : String
  flow_rate_ml_per_second : ℚ
  max_volume_ml : ℚ
deriving DecidableEq, Repr

/-- The default pump configuration of `_load_pump_config`. -/
def defaultPumps : List (String × PumpProfile) :=
  [("pump_a", ⟨"Pump A", 5/2, 500⟩),
   ("pump_b", ⟨"Pump B", 5/2, 500⟩),
   ("pump_c", ⟨"Pump C", 5/2, 500⟩),
   ("drain_pump", ⟨"Drain Pump", 5, 1000⟩)]

/-- `motor_map.get(pump_name, "A")` in `MMUController.run_pump`. -/
def motor_map (pump_name : String) : String :=
  if pump_name = "pump_a" then "A"
  else if pump_name = "pump_b" then "B"
  else if pump_name = "pump_c" then "C"
  else if pump_name = "drain_pump" then "D"
  else "A"

/-- Python `int(...)` on a float/rational: truncation toward zero. -/
def pyIntOfRat (q : ℚ) : Int := if 0 ≤ q then q.floor else q.ceil

/-- `MMUController.run_pump` (lines 190-237): look the pump up in the
configuration (unknown pump rejected), map to a motor id and a direction
code, call `run_stepper(motor_id, direction_code, int(duration_seconds))`.
`stepperOk` is the outcome of the `run_stepper` call (an exception is
caught and turned into `False`). -/
def run_pump (pumps : List (String × PumpProfile)) (pump_name direction : String)
    (duration_seconds : ℚ) (stepperOk : Bool) : Bool × List MMUAction :=
  match pumps.lookup pump_name with
  | none => (false, [])
  | some _pump =>
    let motor_id := motor_map pump_name
    let direction_code := if direction = "forward" then "F" else "R"
    (stepperOk, [MMUAction.stepper motor_id direction_code (pyIntOfRat duration_seconds)])

/-- `MMUController.run_pump_volume` (lines 239-269): look the pump up,
compute `duration_seconds = volume_ml / flow_rate`, delegate to
`run_pump`. -/
def run_pump_volume (pumps : List (String × PumpProfile)) (pump_name direction : String)
    (volume_ml : ℚ) (stepperOk : Bool) : Bool × List MMUAction :=
  match pumps.lookup pump_name with
  | none => (false, [])
  | some pump =>
    let flow_rate := pump.flow_rate_ml_per_second
    let duration_seconds := volume_ml / flow_rate
    run_pump pumps pump_name direction duration_seconds stepperOk

/-- `MMUController.change_material` (lines 113-188) under the default
configuration: validate the uppercased target against `validMaterials`,
drain (with optional air-assist solenoid), fill from `pump_<target>`,
settle.  `drainOk` and `fillOk` are the `run_stepper` outcomes of the
drain and fill pump runs. -/
def change_material (solenoidEnabled : Bool) (target_material : String)
    (drainOk fillOk : Bool) : Bool × List MMUAction :=
  if upperStr target_material ∉ validMaterials then (false, [])
  else
    let target := upperStr target_material
    let pre := if solenoidEnabled then [MMUAction.solenoidOn] else []
    let drainRes := run_pump_volume defaultPumps "drain_pump" "forward" 50 drainOk
    if drainRes.1 = false then
      (false, pre ++ drainRes.2 ++ (if solenoidEnabled then [MMUAction.solenoidOff] else []))
    else
      let post := if solenoidEnabled then [MMUAction.solenoidOff] else []
      let pump_name := String.append "pump_" (lowerStr target)
      let fillRes := run_pump_volume defaultPumps pump_name "forward" 45 fillOk
      if fillRes.1 = false then (false, pre ++ drainRes.2 ++ post ++ fillRes.2)
      else (true, pre ++ drainRes.2 ++ post ++ fillRes.2)

example : (change_material false "B" true true).1 = true := by decide
example : (change_material false "B" false true).1 = false := by decide
example : change_material true "x" true true = (false, []) := by decide

/-- `run_pump_by_id` (mmu_control.py lines 315-329): map the legacy motor
id to a pump name with `id_map.get(pump_id.upper(), "pump_a")` — an
unknown id silently falls back to `pump_a` — then run that pump. -/
def run_pump_by_id (pump_id direction : String) (timing : ℚ) (stepperOk : Bool) :
    Bool × List MMUAction :=
  let pump_name :=
    if upperStr pump_id = "A" then "pump_a"
    else if upperStr pump_id = "B" then "pump_b"
    else if upperStr pump_id = "C" then "pump_c"
    else if upperStr pump_id = "D" then "drain_pump"
    else "pump_a"
  let direction_name := if upperStr direction = "F" then "forward" else "reverse"
  run_pump defaultPumps pump_name direction_name timing stepperOk

example : run_pump_by_id "E" "F" 5 true = (true, [MMUAction.stepper "A" "F" 5]) := by decide

/-- The `pump_control` branch of `PrintManager._process_shared_command`
(print_manager.py lines 925-936): with truthy `motor` and `direction`
and a present `duration`, `run_pump_by_id` is invoked; otherwise only an
error event is emitted.  Neither path returns early, so the branch falls
through to the final `return True`: the command result is success either
way.  Returns `(command result, pump actions, (tag, level) events)`. -/
def pump_control_command (motor direction : Option String) (duration : Option ℚ)
    (stepperOk : Bool) : Bool × List MMUAction × List (String × String) :=
  match motor, direction, duration with
  | some m, some d, some t =>
    if m ≠ "" ∧ d ≠ "" then
      (true, (run_pump_by_id m d t stepperOk).2, [("PUMP", "info"), ("PUMP", "info")])
    else (true, [], [("PUMP", "error")])
  | _, _, _ => (true, [], [("PUMP", "error")])

/-! ### Material-change cycle
(`PrintManager._handle_material_change`, print_manager.py lines 687-744,
with `_enter_error_state` lines 746-751, `_pause_printer` lines 753-768,
`_resume_printer` lines 770-788, `_wait_for_bed_raised` lines 790-823)

Status events are tracked as `(tag, level)` pairs, printer commands as a
`PrinterCmd` trace.  `_enter_error_state` sets the state to `ERROR`,
sets the stop event (the cancellation signal) and emits a
`("SYSTEM", "error")` event; `enteredErrorState` and `stopRequested`
record those two effects. -/

inductive PrinterCmd where
  | pause : PrinterCmd
  | resume : PrinterCmd
deriving DecidableEq, Repr

structure CycleResult where
  success : Bool
  enteredErrorState : Bool
  stopRequested : Bool
  printerCmds : List PrinterCmd
  mmuActions : List MMUAction
  events : List (String × String)
deriving DecidableEq, Repr

/-- The `(tag, level)` pairs emitted by `_wait_for_bed_raised`: the two
initial TIMING messages, three 5-second progress messages, the
pause-verification message (a warning when the re-polled status is not
`pause`), the safety-buffer message and the completion message. -/
def bed_raise_events (pausedVerified : Bool) : List (String × String) :=
  [("TIMING", "info"), ("TIMING", "info"), ("TIMING", "info"), ("TIMING", "info"),
   ("TIMING", "info")]
  ++ [if pausedVerified then ("TIMING", "info") else ("TIMING", "warning")]
  ++ [("TIMING", "info"), ("TIMING", "info")]

/-- `PrintManager._handle_material_change(material)`.  Environment
outcomes: `pauseOk`/`resumeOk` for `_pause_printer`/`_resume_printer`,
`pausedVerified` for the bed-raise status re-poll, `drainOk`/`fillOk`
for the two pump runs inside `mmu_control.change_material`, and
`resumeWaited` for whether `_resume_printer` had to wait out the
quiescent window (which adds one QUIESCENCE event).  Every failure
branch calls `_enter_error_state` and returns `False`. -/
def handle_material_change (material : String) (solenoidEnabled : Bool)
    (pauseOk pausedVerified drainOk fillOk resumeWaited resumeOk : Bool) : CycleResult :=
  let startEvents := [("MATERIAL", "info"), ("TIMING", "info")]
  if pauseOk = false then
    { success := false, enteredErrorState := true, stopRequested := true,
      printerCmds := [PrinterCmd.pause], mmuActions := [],
      events := startEvents ++ [("MATERIAL", "error"), ("SYSTEM", "error")] }
  else
    let preChange := startEvents
      ++ [("QUIESCENCE", "info"), ("TIMING", "info")]
      ++ bed_raise_events pausedVerified
      ++ [("TIMING", "info"), ("TIMING", "info")]
    let mmuRes := change_material solenoidEnabled material drainOk fillOk
    if mmuRes.1 = false then
      { success := false, enteredErrorState := true, stopRequested := true,
        printerCmds := [PrinterCmd.pause], mmuActions := mmuRes.2,
        events := preChange ++ [("MATERIAL", "error"), ("SYSTEM", "error")] }
    else
      let preResume := preChange ++ [("TIMING", "info"), ("TIMING", "info")]
        ++ (if resumeWaited then [("QUIESCENCE", "info")] else [])
      if resumeOk then
        { success := true, enteredErrorState := false, stopRequested := false,
          printerCmds := [PrinterCmd.pause, PrinterCmd.resume], mmuActions := mmuRes.2,
          events := preResume ++ [("MATERIAL", "info")] }
      else
        { success := false, enteredErrorState := true, stopRequested := true,
          printerCmds := [PrinterCmd.pause, PrinterCmd.resume], mmuActions := mmuRes.2,
          events := preResume ++ [("MATERIAL", "error"), ("SYSTEM", "error")] }

/-! ### Pause, resume and the quiescent window
(`_pause_printer` lines 753-768, `_resume_printer` lines 770-788)

Wall-clock time is a rational.  `_resume_printer`'s pre-resume wait loop
`while time.time() < self._quiescent_until and not self._stop_event.wait(0.25)`
exits at the deadline when the stop event is clear, and immediately when
the stop event is set (`Event.wait` returns `True` at once); in both
cases `printer_comms.resume_print` is then called unconditionally. -/

/-- `_pause_printer`: issue the pause; on success open the quiescent
window `now + quiescent_seconds` (default 10), otherwise leave the
window untouched.  Returns `(success, new _quiescent_until)`. -/
def pause_printer (now quiescent_until : ℚ) (pauseOk : Bool) (quiescent_seconds : ℚ) :
    Bool × ℚ :=
  if pauseOk then (true, now + quiescent_seconds) else (false, quiescent_until)

/-- `_resume_printer`: returns
`(time at which resume_print is issued, success, new _quiescent_until)`.
With the stop event clear the wait loop spins until the deadline; with
it set the loop exits at once and resume is issued immediately.  The
window is cleared (set to `0.0`) exactly on a successful resume. -/
def resume_printer (now quiescent_until : ℚ) (stopSet resumeOk : Bool) :
    ℚ × Bool × ℚ :=
  let issueTime :=
    if now < quiescent_until then (if stopSet then now else quiescent_until) else now
  (issueTime, resumeOk, if resumeOk then 0 else quiescent_until)

/-! ### Poll section of one monitoring-loop iteration
(`PrintManager._monitoring_loop`, print_manager.py lines 551-566)

`status` starts as `None`; it is only assigned by an actual poll, which
happens when `time.time() >= self._quiescent_until`; inside the
quiescent window a `("QUIESCENCE", "info")` heartbeat is emitted
instead.  The subsequent `if not status:` branch emits the
`("PRINTER_STATUS", "warning")` "Printer disconnected" event and waits
the 5-second retry delay. -/

/-- Returns `(an actual poll was made, the disconnected branch was taken,
emitted (tag, level) events)`.  `pollOk` is whether `_get_printer_status`
would return a status. -/
def monitor_poll_section (now quiescent_until : ℚ) (pollOk : Bool) :
    Bool × Bool × List (String × String) :=
  if quiescent_until ≤ now then
    if pollOk then (true, false, [("PRINTER_STATUS", "info")])
    else (true, true, [("PRINTER_STATUS", "warning")])
  else
    (false, true, [("QUIESCENCE", "info"), ("PRINTER_STATUS", "warning")])

/-! ### Helper lemmas -/

lemma run_pump_fst (pumps : List (String × PumpProfile)) (name direction : String)
    (d : ℚ) (ok : Bool) :
    (run_pump pumps name direction d ok).1 = ((pumps.lookup name).isSome && ok) := by
  unfold run_pump
  cases h : pumps.lookup name <;> simp [h]

lemma run_pump_volume_fst (pumps : List (String × PumpProfile)) (name direction : String)
    (v : ℚ) (ok : Bool) :
    (run_pump_volume pumps name direction v ok).1 = ((pumps.lookup name).isSome && ok) := by
  unfold run_pump_volume
  cases h : pumps.lookup name
  · simp [h]
  · simp [h, run_pump_fst]

lemma change_material_fst_false (sol : Bool) (mat : String) (dOk fOk : Bool)
    (h : dOk = false ∨ fOk = false) :
    (change_material sol mat dOk fOk).1 = false := by
  unfold change_material
  by_cases hv : upperStr mat ∉ validMaterials
  · rw [if_pos hv]
  · rw [if_neg hv]
    rcases h with h | h
    · subst h
      simp [run_pump_volume_fst]
    · subst h
      by_cases hd : (run_pump_volume defaultPumps "drain_pump" "forward" 50 dOk).1 = false
      · simp [hd]
      · simp [hd, run_pump_volume_fst]

lemma change_material_fst_true (sol : Bool) (mat : String)
    (h : upperStr mat ∈ (["A", "B", "C"] : List String)) :
    (change_material sol mat true true).1 = true := by
  have h2 : upperStr mat = "A" ∨ upperStr mat = "B" ∨ upperStr mat = "C" := by simpa using h
  unfold change_material
  rcases h2 with h2 | h2 | h2 <;> rw [h2] <;> cases sol <;> decide

lemma lookup_filter_self (l : List (Nat × String)) (k : Nat) :
    (l.filter (fun p => decide (p.1 ≠ k))).lookup k = none := by
  rw [List.lookup_eq_none_iff]
  intro p hp
  rcases List.mem_filter.mp hp with ⟨_, hne⟩
  have hne2 : p.1 ≠ k := of_decide_eq_true hne
  simpa using fun e => hne2 e.symm

lemma lookup_filter_ne (l : List (Nat × String)) (k k2 : Nat) (h : k2 ≠ k) :
    (l.filter (fun p => decide (p.1 ≠ k))).lookup k2 = l.lookup k2 := by
  induction l with
  | nil => rfl
  | cons p rest ih =>
    obtain ⟨k0, v0⟩ := p
    rw [List.filter_cons]
    by_cases hp : k0 = k
    · subst hp
      rw [if_neg (by simp)]
      rw [ih, List.lookup_cons, show (k2 == k0) = false by simp [h]]
    · rw [if_pos (by simp [hp])]
      rw [List.lookup_cons, List.lookup_cons, ih]

lemma mem_recipeInsert (m : List (Nat × String)) (k : Nat) (v : String) (p : Nat × String)
    (hp : p ∈ recipeInsert m k v) : p = (k, v) ∨ p ∈ m := by
  induction m with
  | nil => simpa [recipeInsert] using hp
  | cons q rest ih =>
    obtain ⟨k0, v0⟩ := q
    unfold recipeInsert at hp
    by_cases h : k0 = k
    · rw [if_pos h] at hp
      rcases List.mem_cons.mp hp with h2 | h2
      · exact Or.inl h2
      · exact Or.inr (List.mem_cons_of_mem _ h2)
    · rw [if_neg h] at hp
      rcases List.mem_cons.mp hp with h2 | h2
      · exact Or.inr (h2 ▸ List.mem_cons_self _ _)
      · rcases ih h2 with h3 | h3
        · exact Or.inl h3
        · exact Or.inr (List.mem_cons_of_mem _ h3)

lemma lookup_recipeInsert_self (m : List (Nat × String)) (k : Nat) (v : String) :
    (recipeInsert m k v).lookup k = some v := by
  induction m with
  | nil => simp [recipeInsert]
  | cons q rest ih =>
    obtain ⟨k0, v0⟩ := q
    unfold recipeInsert
    by_cases h : k0 = k
    · rw [if_pos h]
      exact List.lookup_cons_self
    · rw [if_neg h, List.lookup_cons, show (k == k0) = false by simp [Ne.symm h]]
      exact ih

lemma lookup_recipeInsert_ne (m : List (Nat × String)) (k : Nat) (v : String) (k2 : Nat)
    (h : k2 ≠ k) : (recipeInsert m k v).lookup k2 = m.lookup k2 := by
  induction m with
  | nil => simp [recipeInsert, List.lookup_cons, show (k2 == k) = false by simp [h]]
  | cons q rest ih =>
    obtain ⟨k0, v0⟩ := q
    unfold recipeInsert
    by_cases hk : k0 = k
    · subst hk
      rw [if_pos rfl, List.lookup_cons, List.lookup_cons,
        show (k2 == k0) = false by simp [h]]
    · rw [if_neg hk, List.lookup_cons, List.lookup_cons, ih]

lemma parseEntry_good (pair : String) (k : Nat) (v : String)
    (h : parseEntry pair = some (k, v)) : 0 < k ∧ v ∈ validMaterials := by
  unfold parseEntry at h
  cases hs : splitFirstComma pair with
  | none => rw [hs] at h; simp at h
  | some pr =>
    obtain ⟨m0, l0⟩ := pr
    rw [hs] at h
    dsimp only at h
    by_cases hm : upperStr (stripStr m0) ∈ validMaterials
    · rw [if_pos hm] at h
      cases hp : parsePyInt (stripStr l0) with
      | none => rw [hp] at h; simp at h
      | some layer =>
        rw [hp] at h
        dsimp only at h
        by_cases hl : 0 < layer
        · rw [if_pos hl] at h
          obtain ⟨hk, hv⟩ := Prod.mk.injEq .. ▸ Option.some.inj h
          subst hk
          subst hv
          exact ⟨by omega, hm⟩
        · rw [if_neg hl] at h
          simp at h
    · rw [if_neg hm] at h
      simp at h

lemma foldl_parsePairStep_good (pairs : List String) (m : List (Nat × String))
    (hm : ∀ p ∈ m, 0 < p.1 ∧ p.2 ∈ validMaterials) :
    ∀ p ∈ pairs.foldl parsePairStep m, 0 < p.1 ∧ p.2 ∈ validMaterials := by
  induction pairs generalizing m with
  | nil => simpa using hm
  | cons s rest ih =>
    rw [List.foldl_cons]
    apply ih
    intro p hp
    unfold parsePairStep at hp
    cases he : parseEntry s with
    | none => rw [he] at hp; exact hm p hp
    | some kv =>
      obtain ⟨k, v⟩ := kv
      rw [he] at hp
      rcases mem_recipeInsert _ _ _ _ hp with h2 | h2
      · subst h2
        exact parseEntry_good s k v he
      · exact hm p h2

lemma lookup_none_filter (l : List (Nat × String)) (pred : Nat × String → Bool) (k : Nat)
    (h : l.lookup k = none) : (l.filter pred).lookup k = none := by
  rw [List.lookup_eq_none_iff] at h ⊢
  intro p hp
  exact h p (List.mem_filter.mp hp).1

lemma isSome_lookup_of_mem (l : List (Nat × String)) (p : Nat × String) (hp : p ∈ l) :
    (l.lookup p.1).isSome := by
  rw [List.lookup_isSome_iff]
  exact ⟨p, hp, by simp⟩

lemma perm_cons_filter_of_lookup (l : List (Nat × String)) (k : Nat) (v : String)
    (hnd : (l.map Prod.fst).Nodup) (h : l.lookup k = some v) :
    l.Perm ((k, v) :: l.filter (fun p => decide (p.1 ≠ k))) := by
  induction l with
  | nil => simp at h
  | cons p rest ih =>
    obtain ⟨k0, v0⟩ := p
    rw [List.lookup_cons] at h
    rw [List.filter_cons]
    rw [List.map_cons, List.nodup_cons] at hnd
    obtain ⟨hk0, hndr⟩ := hnd
    by_cases hk : k = k0
    · subst hk
      rw [show (k == k) = true by simp] at h
      obtain rfl : v0 = v := Option.some.inj h
      rw [if_neg (by simp)]
      have hrest : rest.filter (fun p => decide (p.1 ≠ k)) = rest := by
        rw [List.filter_eq_self]
        intro p hp
        have hne : p.1 ≠ k := by
          intro e
          exact hk0 (by rw [← e]; exact List.mem_map.mpr ⟨p, hp, rfl⟩)
        simpa using hne
      rw [hrest]
    · rw [show (k == k0) = false by simp [hk]] at h
      rw [if_pos (by simp [Ne.symm hk])]
      exact ((ih hndr h).cons (k0, v0)).trans (List.Perm.swap _ _ _)

/-- The inductive invariant of the monitoring loop: over a
non-decreasing poll sequence covering every remaining recipe layer, the
triggered material changes are exactly the recipe entries, appended in
strictly increasing layer order. -/
lemma monitorRun_aux (polls : List Nat) :
    ∀ s : MonState,
      (s.recipe.map Prod.fst).Nodup →
      (∀ p ∈ s.recipe, p.1 ∈ polls) →
      polls.Sorted (· ≤ ·) →
      (∀ l, s.lastProcessed = some l → s.recipe.lookup l = none) →
      (∀ e ∈ s.events, s.recipe.lookup e.1 = none) →
      (∀ e ∈ s.events, ∀ q ∈ polls, e.1 ≤ q) →
      (s.events.map Prod.fst).Sorted (· < ·) →
      (polls.foldl (monitorStep true true) s).events.Perm (s.events ++ s.recipe)
      ∧ ((polls.foldl (monitorStep true true) s).events.map Prod.fst).Sorted (· < ·) := by
  induction polls with
  | nil =>
    intro s _hnd hcov _hsort _hlast _hev _hle hevs
    have hrec : s.recipe = [] := by
      cases hr : s.recipe with
      | nil => rfl
      | cons p rest =>
        have := hcov p (by rw [hr]; exact List.mem_cons_self p rest)
        exact absurd this (List.not_mem_nil _)
    rw [List.foldl_nil, hrec, List.append_nil]
    exact ⟨List.Perm.refl _, hevs⟩
  | cons q rest ih =>
    intro s hnd hcov hsort hlast hev hle hevs
    rw [List.foldl_cons]
    obtain ⟨hq_le, hsort_rest⟩ := List.sorted_cons.mp hsort
    cases hq : s.recipe.lookup q with
    | none =>
      have hstep : monitorStep true true s q = s := by
        unfold monitorStep
        rw [if_neg]
        rintro ⟨-, h2, -⟩
        rw [hq] at h2
        simp at h2
      rw [hstep]
      refine ih s hnd ?_ hsort_rest hlast hev ?_ hevs
      · intro p hp
        rcases List.mem_cons.mp (hcov p hp) with h2 | h2
        · exfalso
          have := isSome_lookup_of_mem s.recipe p hp
          rw [h2, hq] at this
          simp at this
        · exact h2
      · intro e he qq hqq
        exact hle e he qq (List.mem_cons_of_mem _ hqq)
    | some v =>
      have hcond : true = true ∧ (s.recipe.lookup q).isSome ∧ s.lastProcessed ≠ some q := by
        refine ⟨rfl, by rw [hq]; rfl, ?_⟩
        intro hl
        have := hlast q hl
        rw [hq] at this
        simp at this
      have hstep : monitorStep true true s q =
          ⟨s.recipe.filter (fun p => decide (p.1 ≠ q)), some q, s.events ++ [(q, v)]⟩ := by
        unfold monitorStep
        rw [if_pos hcond]
        simp [hq]
      rw [hstep]
      have hnd2 : ((s.recipe.filter (fun p => decide (p.1 ≠ q))).map Prod.fst).Nodup :=
        hnd.sublist ((List.filter_sublist s.recipe).map Prod.fst)
      have hcov2 : ∀ p ∈ s.recipe.filter (fun p => decide (p.1 ≠ q)), p.1 ∈ rest := by
        intro p hp
        obtain ⟨hpm, hpne⟩ := List.mem_filter.mp hp
        rcases List.mem_cons.mp (hcov p hpm) with h2 | h2
        · exact absurd h2 (of_decide_eq_true hpne)
        · exact h2
      have hlast2 : ∀ l, (some q : Option Nat) = some l →
          (s.recipe.filter (fun p => decide (p.1 ≠ q))).lookup l = none := by
        intro l hl
        obtain rfl : q = l := Option.some.inj hl
        exact lookup_filter_self s.recipe q
      have hev2 : ∀ e ∈ s.events ++ [(q, v)],
          (s.recipe.filter (fun p => decide (p.1 ≠ q))).lookup e.1 = none := by
        intro e he
        rcases List.mem_append.mp he with h2 | h2
        · exact lookup_none_filter _ _ _ (hev e h2)
        · obtain rfl : e = (q, v) := by simpa using h2
          exact lookup_filter_self s.recipe q
      have hle2 : ∀ e ∈ s.events ++ [(q, v)], ∀ qq ∈ rest, e.1 ≤ qq := by
        intro e he qq hqq
        rcases List.mem_append.mp he with h2 | h2
        · exact hle e h2 qq (List.mem_cons_of_mem _ hqq)
        · obtain rfl : e = (q, v) := by simpa using h2
          exact hq_le qq hqq
      have hlt : ∀ x ∈ s.events.map Prod.fst, x < q := by
        intro x hx
        obtain ⟨e, he, rfl⟩ := List.mem_map.mp hx
        have h1 : e.1 ≤ q := hle e he q (List.mem_cons_self q rest)
        have h2 : e.1 ≠ q := by
          intro e2
          have := hev e he
          rw [e2, hq] at this
          simp at this
        exact lt_of_le_of_ne h1 h2
      have hevs2 : ((s.events ++ [(q, v)]).map Prod.fst).Sorted (· < ·) := by
        rw [List.map_append]
        refine List.pairwise_append.mpr ⟨hevs, List.sorted_singleton _, ?_⟩
        intro x hx y hy
        obtain rfl : y = q := by simpa using hy
        exact hlt x hx
      obtain ⟨hperm, hsorted⟩ :=
        ih ⟨s.recipe.filter (fun p => decide (p.1 ≠ q)), some q, s.events ++ [(q, v)]⟩
          hnd2 hcov2 hsort_rest hlast2 hev2 hle2 hevs2
      refine ⟨hperm.trans ?_, hsorted⟩
      have h1 : s.recipe.Perm ((q, v) :: s.recipe.filter (fun p => decide (p.1 ≠ q))) :=
        perm_cons_filter_of_lookup s.recipe q v hnd hq
      rw [← List.append_cons]
      exact List.Perm.append_left s.events h1.symm

/-! ### Claims -/

/-- C1: over any non-decreasing sequence of observed layer values that
reaches every recipe layer, with the recipe active and every material
change succeeding, the monitoring loop triggers exactly one material
change per recipe entry — the triggered events are a permutation of the
recipe — in strictly increasing layer order (so no layer is ever
triggered twice, even when it is observed in consecutive polls). -/
theorem c1_one_change_per_recipe_layer (recipe : List (Nat × String)) (polls : List Nat)
    (hnd : (recipe.map Prod.fst).Nodup)
    (hsort : polls.Sorted (· ≤ ·))
    (hcov : ∀ p ∈ recipe, p.1 ∈ polls) :
    (monitorRun recipe polls).events.Perm recipe
    ∧ ((monitorRun recipe polls).events.map Prod.fst).Sorted (· < ·) := by
  have h := monitorRun_aux polls ⟨recipe, none, []⟩ hnd hcov hsort
    (by intro l hl; simp at hl) (by intro e he; simp at he)
    (by intro e he; simp at he) (by simp)
  simpa [monitorRun] using h

/-- Witness for C1 at the spec scenario: recipe `A,10:B,25`, polls
`1,1,5,10,10,15,25,25,30`. -/
theorem c1_one_change_per_recipe_layer_witness :
    ((load_recipe "A,10:B,25").map Prod.fst).Nodup
    ∧ ([1, 1, 5, 10, 10, 15, 25, 25, 30] : List Nat).Sorted (· ≤ ·)
    ∧ (∀ p ∈ load_recipe "A,10:B,25", p.1 ∈ [1, 1, 5, 10, 10, 15, 25, 25, 30])
    ∧ ((monitorRun (load_recipe "A,10:B,25") [1, 1, 5, 10, 10, 15, 25, 25, 30]).events.Perm
        (load_recipe "A,10:B,25")
      ∧ ((monitorRun (load_recipe "A,10:B,25")
            [1, 1, 5, 10, 10, 15, 25, 25, 30]).events.map Prod.fst).Sorted (· < ·)) :=
  ⟨by decide, by decide, by decide,
   c1_one_change_per_recipe_layer (load_recipe "A,10:B,25") [1, 1, 5, 10, 10, 15, 25, 25, 30]
     (by decide) (by decide) (by decide)⟩

/-- C8: recipe loading splits the text on `:` and each entry on the
first `,` only, uppercases and validates the material, requires a
positive integer layer, lets a later duplicate layer override the
earlier one, and skips malformed entries individually: (1) every entry
of any loaded recipe has a positive layer key and a valid material; (2)
an entry that fails validation leaves the dict unchanged (the rest of
the fold still loads); (3) a valid entry `(k, v)` sets key `k` to `v`
(overriding any earlier binding of `k`) and leaves every other key
unchanged. -/
theorem c8_load_recipe_parse :
    (∀ text : String, ∀ p ∈ load_recipe text, 0 < p.1 ∧ p.2 ∈ validMaterials)
    ∧ (∀ (m : List (Nat × String)) (pair : String),
        parseEntry pair = none → parsePairStep m pair = m)
    ∧ (∀ (m : List (Nat × String)) (pair : String) (k : Nat) (v : String),
        parseEntry pair = some (k, v) →
        (parsePairStep m pair).lookup k = some v
        ∧ ∀ k2, k2 ≠ k → (parsePairStep m pair).lookup k2 = m.lookup k2) := by
  refine ⟨?_, ?_, ?_⟩
  · intro text p hp
    unfold load_recipe at hp
    by_cases ht : stripChars text.data = []
    · rw [if_pos ht] at hp
      exact absurd hp (List.not_mem_nil p)
    · rw [if_neg ht] at hp
      exact foldl_parsePairStep_good _ [] (by simp) p hp
  · intro m pair h
    unfold parsePairStep
    rw [h]
  · intro m pair k v h
    unfold parsePairStep
    rw [h]
    exact ⟨lookup_recipeInsert_self m k v, fun k2 hk2 => lookup_recipeInsert_ne m k v k2 hk2⟩

/-- Witness for C8: an entry of a loaded recipe, a skipped malformed
entry, and a duplicate-layer override evaluated at concrete inputs. -/
theorem c8_load_recipe_parse_witness :
    ((10, "A") ∈ load_recipe "A,10:B,25" ∧ (0 < 10 ∧ "A" ∈ validMaterials))
    ∧ (parseEntry "x" = none ∧ parsePairStep [(7, "B")] "x" = [(7, "B")])
    ∧ (parseEntry "b, 120" = some (120, "B")
        ∧ (parsePairStep [(120, "A"), (50, "C")] "b, 120").lookup 120 = some "B"
        ∧ (parsePairStep [(120, "A"), (50, "C")] "b, 120").lookup 50
            = [(120, "A"), (50, "C")].lookup 50) :=
  ⟨⟨by decide, c8_load_recipe_parse.1 "A,10:B,25" (10, "A") (by decide)⟩,
   ⟨by decide, c8_load_recipe_parse.2.1 [(7, "B")] "x" (by decide)⟩,
   by decide,
   (c8_load_recipe_parse.2.2 [(120, "A"), (50, "C")] "b, 120" 120 "B" (by decide)).1,
   (c8_load_recipe_parse.2.2 [(120, "A"), (50, "C")] "b, 120" 120 "B" (by decide)).2
     50 (by decide)⟩

/-- C4: after the monitoring loop executes a material change for layer
`L` (the trigger condition of lines 598-626 holds), the recorded
`last_processed_layer` equals `L` whether or not the change succeeded;
the recipe entry for `L` is removed exactly when it succeeded; and no
other recipe entry is modified. -/
theorem c4_material_change_bookkeeping (recipeActive changeOk : Bool) (s : MonState) (L : Nat)
    (hactive : recipeActive = true) (hmem : (s.recipe.lookup L).isSome)
    (hlast : s.lastProcessed ≠ some L) :
    ((monitorStep recipeActive changeOk s L).lastProcessed = some L)
    ∧ ((monitorStep recipeActive changeOk s L).recipe.lookup L = none ↔ changeOk = true)
    ∧ (∀ k, k ≠ L → (monitorStep recipeActive changeOk s L).recipe.lookup k = s.recipe.lookup k) := by
  have hcond : recipeActive = true ∧ (s.recipe.lookup L).isSome ∧ s.lastProcessed ≠ some L :=
    ⟨hactive, hmem, hlast⟩
  unfold monitorStep
  rw [if_pos hcond]
  have hne : s.recipe.lookup L ≠ none := by
    intro hnone
    rw [hnone] at hmem
    simp at hmem
  cases changeOk
  · refine ⟨rfl, ?_, fun k _hk => rfl⟩
    constructor
    · intro hnone
      exact absurd hnone hne
    · intro h
      simp at h
  · exact ⟨rfl, iff_of_true (lookup_filter_self s.recipe L) rfl,
      fun k hk => lookup_filter_ne _ _ _ hk⟩

/-- Witness for C4 at the recipe `[(10, "A")]`, layer 10, both outcomes. -/
theorem c4_material_change_bookkeeping_witness :
    (((⟨[(10, "A")], none, []⟩ : MonState).recipe.lookup 10).isSome = true)
    ∧ ((monitorStep true true ⟨[(10, "A")], none, []⟩ 10).lastProcessed = some 10
        ∧ ((monitorStep true true ⟨[(10, "A")], none, []⟩ 10).recipe.lookup 10 = none ↔ true = true)
        ∧ (∀ k, k ≠ 10 →
            (monitorStep true true ⟨[(10, "A")], none, []⟩ 10).recipe.lookup k
              = (⟨[(10, "A")], none, []⟩ : MonState).recipe.lookup k)) :=
  ⟨by decide,
   c4_material_change_bookkeeping true true ⟨[(10, "A")], none, []⟩ 10 rfl (by decide) (by decide)⟩

/-- C2 counterexample: with the pause succeeding and the fill step of
the pump sequence failing (a drain/fill-step failure, not a resume
failure), `_handle_material_change` still calls `_enter_error_state`:
the state is set to `ERROR` and the cancellation signal is asserted,
contradicting the claim that a pause/drain/fill failure neither
transitions to the error state nor asserts the cancellation signal. -/
theorem c2_counterexample_fill_failure_escalates :
    (handle_material_change "A" false true true true false false true).success = false
    ∧ (handle_material_change "A" false true true true false false true).enteredErrorState = true
    ∧ (handle_material_change "A" false true true true false false true).stopRequested = true := by
  decide

/-- C2 (amended): every step failure of a material change — pause,
drain, fill or resume — aborts the change with failure and is escalated
identically through `_enter_error_state`: the state transitions to
`ERROR` and the cancellation signal is asserted (so the monitoring loop
stops); only when every step succeeds does the cycle succeed with no
error-state transition and no cancellation. -/
theorem c2_any_step_failure_escalates (mat : String)
    (sol pauseOk pv dOk fOk rw2 resOk : Bool) :
    ((pauseOk = false ∨ dOk = false ∨ fOk = false ∨ resOk = false) →
      (handle_material_change mat sol pauseOk pv dOk fOk rw2 resOk).success = false
      ∧ (handle_material_change mat sol pauseOk pv dOk fOk rw2 resOk).enteredErrorState = true
      ∧ (handle_material_change mat sol pauseOk pv dOk fOk rw2 resOk).stopRequested = true)
    ∧ (upperStr mat ∈ (["A", "B", "C"] : List String) →
      pauseOk = true → dOk = true → fOk = true → resOk = true →
      (handle_material_change mat sol pauseOk pv dOk fOk rw2 resOk).success = true
      ∧ (handle_material_change mat sol pauseOk pv dOk fOk rw2 resOk).enteredErrorState = false
      ∧ (handle_material_change mat sol pauseOk pv dOk fOk rw2 resOk).stopRequested = false) := by
  constructor
  · intro h
    unfold handle_material_change
    cases pauseOk
    · simp
    · rcases h with h | h | h | h
      · exact absurd h (by simp)
      · simp [change_material_fst_false sol mat _ _ (Or.inl h)]
      · simp [change_material_fst_false sol mat _ _ (Or.inr h)]
      · subst h
        by_cases hm : (change_material sol mat dOk fOk).1 = false
        · simp [hm]
        · simp [hm]
  · intro hmat hp hd hf hr
    subst hp; subst hd; subst hf; subst hr
    unfold handle_material_change
    simp [change_material_fst_true sol mat hmat]

/-- Witness for C2 (amended): fill failure escalates, all-success does not. -/
theorem c2_any_step_failure_escalates_witness :
    ((handle_material_change "B" false true true true false false true).success = false
      ∧ (handle_material_change "B" false true true true false false true).enteredErrorState = true
      ∧ (handle_material_change "B" false true true true false false true).stopRequested = true)
    ∧ ((handle_material_change "B" false true true true true false true).success = true
      ∧ (handle_material_change "B" false true true true true false true).enteredErrorState = false
      ∧ (handle_material_change "B" false true true true true false true).stopRequested = false) :=
  ⟨(c2_any_step_failure_escalates "B" false true true true false false true).1
      (Or.inr (Or.inr (Or.inl rfl))),
   (c2_any_step_failure_escalates "B" false true true true true false true).2
      (by decide) rfl rfl rfl rfl⟩

/-- C3: in a material-change cycle where the pause and drain succeed but
the fill step reports failure, the printer resume command is never
issued, and an error-level status event tagged `MATERIAL` is emitted. -/
theorem c3_fill_failure_no_resume (mat : String) (sol pv rw2 resOk : Bool) :
    PrinterCmd.resume ∉ (handle_material_change mat sol true pv true false rw2 resOk).printerCmds
    ∧ ("MATERIAL", "error") ∈ (handle_material_change mat sol true pv true false rw2 resOk).events := by
  unfold handle_material_change
  simp [change_material_fst_false sol mat _ _ (Or.inr rfl)]

/-- C5 counterexample: the pump-jog command with unknown motor id `"E"`
is not rejected: `run_pump_by_id` silently maps it to `pump_a`, pump A
is run for the requested duration, and the command-dispatch result is
success (the `pump_control` branch of `_process_shared_command` falls
through to `return True`). -/
theorem c5_counterexample_unknown_motor_runs_pump_a :
    upperStr "E" ∉ validMaterials
    ∧ run_pump_by_id "E" "F" 5 true = (true, [MMUAction.stepper "A" "F" 5])
    ∧ (pump_control_command (some "E") (some "F") (some 5) true).1 = true
    ∧ (pump_control_command (some "E") (some "F") (some 5) true).2.1
        = [MMUAction.stepper "A" "F" 5] := by
  decide

/-- C5 (amended): a pump-jog command whose motor id is not one of the
known pumps A, B, C, D is not rejected: `id_map.get(pump_id.upper(),
"pump_a")` silently falls back to `pump_a`, so pump A is run with the
requested direction and duration, and the command result reports
success.  (Only a command with a missing/empty motor, direction or
duration skips the pump run, and even that reports success.) -/
theorem c5_unknown_motor_falls_back_to_pump_a (motor : String)
    (h : upperStr motor ∉ validMaterials) (direction : String) (t : ℚ) (ok : Bool) :
    run_pump_by_id motor direction t ok
      = run_pump defaultPumps "pump_a"
          (if upperStr direction = "F" then "forward" else "reverse") t ok
    ∧ (run_pump_by_id motor direction t ok).2
      = [MMUAction.stepper "A" (if upperStr direction = "F" then "F" else "R") (pyIntOfRat t)]
    ∧ (pump_control_command (some motor) (some direction) (some t) ok).1 = true := by
  simp only [validMaterials, List.mem_cons, List.not_mem_nil, or_false, not_or] at h
  obtain ⟨hA, hB, hC, hD⟩ := h
  have he : run_pump_by_id motor direction t ok
      = run_pump defaultPumps "pump_a"
          (if upperStr direction = "F" then "forward" else "reverse") t ok := by
    unfold run_pump_by_id
    rw [if_neg hA, if_neg hB, if_neg hC, if_neg hD]
  refine ⟨he, ?_, ?_⟩
  · rw [he]
    by_cases hdir : upperStr direction = "F"
    · rw [if_pos hdir, if_pos hdir]
      rfl
    · rw [if_neg hdir, if_neg hdir]
      rfl
  · unfold pump_control_command
    split
    · split <;> rfl
    · next h => exact (h motor direction t rfl rfl rfl).elim

/-- Witness for C5 (amended) at motor id `"E"`. -/
theorem c5_unknown_motor_falls_back_to_pump_a_witness :
    upperStr "E" ∉ validMaterials
    ∧ (run_pump_by_id "E" "R" 7 true).2 = [MMUAction.stepper "A" "R" (pyIntOfRat 7)] :=
  ⟨by decide, (c5_unknown_motor_falls_back_to_pump_a "E" (by decide) "R" 7 true).2.1⟩

/-- C6 counterexample: with the cancellation signal set, the pre-resume
wait loop of `_resume_printer` exits immediately and the resume command
is issued at the current time, strictly inside the still-open quiescent
window (here at time 3 with the window open until 10) — contradicting
the claim that resume is issued only after the window has fully
elapsed. -/
theorem c6_counterexample_resume_inside_window :
    (resume_printer 3 10 true true).1 = 3 ∧ (3 : ℚ) < 10 := by
  decide

/-- C6 (amended): when the cancellation signal is clear, the resume
command is issued no earlier than the quiescent-window deadline (and no
earlier than the call time); when the cancellation signal is set, the
wait is abandoned and resume is issued immediately, possibly inside the
window.  The window is reset to 0 exactly on resume success and left
unchanged on failure. -/
theorem c6_resume_respects_window_unless_cancelled (now q : ℚ) (stopSet resumeOk : Bool) :
    (stopSet = false → q ≤ (resume_printer now q stopSet resumeOk).1
      ∧ now ≤ (resume_printer now q stopSet resumeOk).1)
    ∧ (stopSet = true → (resume_printer now q stopSet resumeOk).1 = now)
    ∧ (resumeOk = true → (resume_printer now q stopSet resumeOk).2.2 = 0)
    ∧ (resumeOk = false → (resume_printer now q stopSet resumeOk).2.2 = q) := by
  unfold resume_printer
  refine ⟨?_, ?_, ?_, ?_⟩
  · intro hs
    subst hs
    by_cases hlt : now < q
    · simp [hlt, le_of_lt hlt]
    · simp [hlt, le_of_not_lt hlt]
  · intro hs
    subst hs
    by_cases hlt : now < q <;> simp [hlt]
  · intro hr
    subst hr
    rfl
  · intro hr
    subst hr
    rfl

/-- Witness for C6 (amended) at call time 3, window deadline 10. -/
theorem c6_resume_respects_window_witness :
    ((10 : ℚ) ≤ (resume_printer 3 10 false true).1
      ∧ (3 : ℚ) ≤ (resume_printer 3 10 false true).1)
    ∧ (resume_printer 3 10 false true).2.2 = 0 :=
  ⟨(c6_resume_respects_window_unless_cancelled 3 10 false true).1 rfl,
   (c6_resume_respects_window_unless_cancelled 3 10 false true).2.2.1 rfl⟩

/-- C7: in an iteration inside the quiescent window (here `now = 0`,
window open until 10, printer reachable) the poll is skipped and the
heartbeat is emitted — but because `status` is then still `None`, the
`if not status:` branch also emits the `("PRINTER_STATUS", "warning")`
"Printer disconnected" event and takes the 5-second retry wait,
although no actual poll failed.  This evaluates the code at the failing
input of the code-bug report. -/
theorem c7_quiescent_iteration_emits_disconnected :
    (monitor_poll_section 0 10 true).1 = false
    ∧ ("QUIESCENCE", "info") ∈ (monitor_poll_section 0 10 true).2.2
    ∧ ("PRINTER_STATUS", "warning") ∈ (monitor_poll_section 0 10 true).2.2
    ∧ (monitor_poll_section 0 10 true).2.1 = true := by
  decide

/-- C9: `run_pump_volume` computes its duration as
`volume_ml / flow_rate_ml_per_second` for the pump in question; in
particular, for flow rate 2.5 ml/s and volume 50 ml the computed
duration is exactly 20.0 seconds, and the stepper for `pump_a` is run
for 20 seconds. -/
theorem c9_volume_duration_conversion :
    (∀ (pumps : List (String × PumpProfile)) (name direction : String) (pump : PumpProfile)
        (volume_ml : ℚ) (stepperOk : Bool), pumps.lookup name = some pump →
        run_pump_volume pumps name direction volume_ml stepperOk
          = run_pump pumps name direction (volume_ml / pump.flow_rate_ml_per_second) stepperOk)
    ∧ (50 : ℚ) / (5/2) = 20
    ∧ (run_pump_volume defaultPumps "pump_a" "forward" 50 true).2
        = [MMUAction.stepper "A" "F" 20] := by
  refine ⟨?_, by norm_num, ?_⟩
  · intro pumps name direction pump v ok h
    unfold run_pump_volume
    rw [h]
  · have h20 : (50 : ℚ) / (5/2) = 20 := by norm_num
    have he : (run_pump_volume defaultPumps "pump_a" "forward" 50 true).2
        = [MMUAction.stepper "A" "F" (pyIntOfRat ((50 : ℚ) / (5/2)))] := rfl
    rw [he, h20]
    decide

/-- Witness for C9 at the default `pump_a` profile. -/
theorem c9_volume_duration_conversion_witness :
    defaultPumps.lookup "pump_a" = some ⟨"Pump A", 5/2, 500⟩
    ∧ run_pump_volume defaultPumps "pump_a" "forward" 50 true
      = run_pump defaultPumps "pump_a" "forward"
          (50 / (⟨"Pump A", 5/2, 500⟩ : PumpProfile).flow_rate_ml_per_second) true :=
  ⟨rfl, c9_volume_duration_conversion.1 defaultPumps "pump_a" "forward" ⟨"Pump A", 5/2, 500⟩ 50 true rfl⟩

/-- C10: `MMUController.change_material` with a target whose uppercase
form is not one of A, B, C, D fails immediately: it returns `False`
with an empty hardware trace — no pump is run and the air-assist
solenoid is never actuated, whether or not the solenoid is enabled. -/
theorem c10_invalid_target_rejected_before_hardware (solenoidEnabled : Bool) (target : String)
    (drainOk fillOk : Bool) (h : upperStr target ∉ validMaterials) :
    change_material solenoidEnabled target drainOk fillOk = (false, []) := by
  unfold change_material
  rw [if_pos h]

/-- Witness for C10 at target `"x"` with the solenoid enabled. -/
theorem c10_invalid_target_rejected_witness :
    upperStr "x" ∉ validMaterials ∧ change_material true "x" true true = (false, []) :=
  ⟨by decide, c10_invalid_target_rejected_before_hardware true "x" true true (by decide)⟩

end MMP
